import Mathlib

set_option maxHeartbeats 1000000

/-!
Verification of the refresh-token rotation and reuse-detection core of the
Travel_application_backend repository.

The repository ships two source artifacts: the HTTP controller
(src/controller/auth.controller.js) and the prisma data model.  The token-store
service bodies (services/auth.services.js) and the reuse-detection helper
(utils/auth.js) are declared and called but their bodies are not part of the
sources, so the protocol layer below is modelled from the specification
(sections 3 to 5), while the controller layer and the storage schema are
embedded directly from the source files.
-/

namespace Protocol

/-- Lifecycle states of a refresh-token record (spec section 3). -/
inductive Status
  | active
  | rotated
  | revoked
deriving DecidableEq

/-- Modelled from the spec: the Refresh Token Record persisted by the Token
Store (spec section 3); the store itself lives in services/auth.services.js,
which is not among the sources. -/
structure TokenRec where
  token_id : Nat
  lineage_id : Nat
  parent_token_id : Option Nat
  owner_id : Nat
  status : Status
deriving DecidableEq

/-- The Token Store: the list of persisted refresh-token records. -/
abbrev Store := List TokenRec

/-- Record lookup by token identifier (first match). -/
def lookup : Store → Nat → Option TokenRec
  | [], _ => none
  | r :: s, t => if r.token_id = t then some r else lookup s t

/-- Pointwise revocation of one lineage. -/
def revokeUpd (lid : Nat) (r : TokenRec) : TokenRec :=
  if r.lineage_id = lid then { r with status := Status.revoked } else r

/-- Modelled from the spec: revokeLineage (spec section 4.3, the Reuse
Detector primitive also used by the Session Terminator): every record of the
lineage becomes revoked. -/
def revokeLineage (s : Store) (lid : Nat) : Store := s.map (revokeUpd lid)

/-- The conditioned status transition of spec section 4.2 step 2a: a record
moves to rotated only if it carries the presented token id and is still
active at the instant of update. -/
def casUpd (t : Nat) (r : TokenRec) : TokenRec :=
  if r.token_id = t ∧ r.status = Status.active then { r with status := Status.rotated } else r

/-- The store after the conditioned transition on token t. -/
def casStore (s : Store) (t : Nat) : Store := s.map (casUpd t)

/-- The successor record minted by a successful rotation (spec section 4.2
step 2c): active, same lineage, parent pointing at the rotated record. -/
def succRec (r : TokenRec) (fid : Nat) : TokenRec :=
  { token_id := fid
  , lineage_id := r.lineage_id
  , parent_token_id := some r.token_id
  , owner_id := r.owner_id
  , status := Status.active }

/-- Outcome of one rotation attempt. -/
inductive RotResult
  | ok (newTok : Nat)
  | errUnknown
  | errRevoked
  | errReuse
deriving DecidableEq

/-- Modelled from the spec: the Rotation Engine (spec section 4.2), the core
of refreshTokenSets; its collaborators refreshTokenReuseDetection and
replaceRefreshTokenUser are not among the sources.  Unknown token fails,
revoked token fails, rotated token is reuse: the whole lineage is revoked and
the attempt fails, an active token is rotated and a fresh successor record is
inserted. -/
def rotate (s : Store) (t : Nat) (fid : Nat) : RotResult × Store :=
  match lookup s t with
  | none => (RotResult.errUnknown, s)
  | some r =>
    match r.status with
    | Status.revoked => (RotResult.errRevoked, s)
    | Status.rotated => (RotResult.errReuse, revokeLineage s r.lineage_id)
    | Status.active => (RotResult.ok fid, casStore s t ++ [succRec r fid])

/-- Outcome of one logout attempt. -/
inductive LogoutResult
  | ok
  | errUnknown
deriving DecidableEq

/-- Modelled from the spec: the Session Terminator (spec section 4.4, the
core of logOut): a known record revokes its whole lineage and succeeds,
already-revoked lineages succeed trivially, unknown tokens fail. -/
def logout (s : Store) (t : Nat) : LogoutResult × Store :=
  match lookup s t with
  | none => (LogoutResult.errUnknown, s)
  | some r => (LogoutResult.ok, revokeLineage s r.lineage_id)

/-- The store mutators (spec section 5: only the Rotation Engine and the
Session Terminator write to the Token Store). -/
inductive Op
  | rot (t fid : Nat)
  | lout (t : Nat)

/-- Effect of one mutator call on the store. -/
def applyOp (s : Store) : Op → Store
  | Op.rot t fid => (rotate s t fid).2
  | Op.lout t => (logout s t).2

/-- Effect of a sequence of mutator calls on the store. -/
def runOps : Store → List Op → Store
  | s, [] => s
  | s, op :: ops => runOps (applyOp s op) ops

/-- Every record of the lineage is revoked. -/
def allRevoked (lid : Nat) (s : Store) : Prop :=
  ∀ q ∈ s, q.lineage_id = lid → q.status = Status.revoked

end Protocol

namespace Race

open Protocol

/-- What one caller observed when it looked the presented token up. -/
inductive Obs
  | oActive
  | oRotated
  | oRevoked
  | oUnknown
deriving DecidableEq

/-- The lookup phase of a rotation attempt. -/
def observe (s : Store) (t : Nat) : Obs :=
  match lookup s t with
  | none => Obs.oUnknown
  | some r =>
    match r.status with
    | Status.active => Obs.oActive
    | Status.rotated => Obs.oRotated
    | Status.revoked => Obs.oRevoked

/-- Progress of one concurrent caller: not yet looked up, looked up, or
finished with a result. -/
inductive Phase
  | init
  | looked (o : Obs)
  | done (r : RotResult)
deriving DecidableEq

/-- One concurrent rotation attempt: its progress and the fresh token id it
would mint on success. -/
structure Caller where
  phase : Phase
  fid : Nat
deriving DecidableEq

/-- Shared store plus the per-caller states. -/
structure Config where
  store : Store
  callers : List Caller
deriving DecidableEq

/-- One atomic step of a single caller on the shared store, following spec
section 4.2: the lookup is one suspension point, and the conditioned
transition together with the successor insert is the single atomic mutation
(spec section 5).  A failed conditioned transition takes the reuse path
(step 2b), as does an observation of a rotated record; an observed revoked
record fails without touching the store. -/
def stepCaller (t : Nat) (s : Store) (c : Caller) : Store × Caller :=
  match c.phase with
  | Phase.init => (s, { phase := Phase.looked (observe s t), fid := c.fid })
  | Phase.looked Obs.oUnknown => (s, { phase := Phase.done RotResult.errUnknown, fid := c.fid })
  | Phase.looked Obs.oRevoked => (s, { phase := Phase.done RotResult.errRevoked, fid := c.fid })
  | Phase.looked Obs.oRotated =>
    match lookup s t with
    | none => (s, { phase := Phase.done RotResult.errUnknown, fid := c.fid })
    | some r =>
      (revokeLineage s r.lineage_id, { phase := Phase.done RotResult.errReuse, fid := c.fid })
  | Phase.looked Obs.oActive =>
    match lookup s t with
    | none => (s, { phase := Phase.done RotResult.errUnknown, fid := c.fid })
    | some r =>
      if r.status = Status.active then
        (casStore s t ++ [succRec r c.fid],
         { phase := Phase.done (RotResult.ok c.fid), fid := c.fid })
      else
        (revokeLineage s r.lineage_id, { phase := Phase.done RotResult.errReuse, fid := c.fid })
  | Phase.done r => (s, { phase := Phase.done r, fid := c.fid })

/-- Scheduler step: caller k (if any) executes its next atomic step. -/
def step (t : Nat) (cfg : Config) (k : Nat) : Config :=
  match cfg.callers.get? k with
  | none => cfg
  | some c =>
    { store := (stepCaller t cfg.store c).1
    , callers := cfg.callers.set k (stepCaller t cfg.store c).2 }

/-- Run a schedule: the list of caller indices chosen by the scheduler. -/
def run (t : Nat) (cfg : Config) : List Nat → Config
  | [] => cfg
  | k :: σ => run t (step t cfg k) σ

/-- Initial configuration: the shared store and one fresh caller per minted
token id, none of them started. -/
def initConfig (s : Store) (fids : List Nat) : Config :=
  { store := s, callers := fids.map (fun f => { phase := Phase.init, fid := f }) }

/-- Whether a caller has finished. -/
def isDone (c : Caller) : Bool :=
  match c.phase with
  | Phase.done _ => true
  | _ => false

/-- Whether every caller has finished. -/
def allDone (cfg : Config) : Bool := cfg.callers.all isDone

/-- The per-caller outcomes, in caller order. -/
def resultsOf (cfg : Config) : List (Option RotResult) :=
  cfg.callers.map (fun c =>
    match c.phase with
    | Phase.done r => some r
    | _ => none)

end Race

namespace Schema

/-- The refresh_token row exactly as declared by the prisma model
refresh_token in the schema source: an autoincrement id, the token string,
two timestamps and an optional owning user id.  The model carries no status
column. -/
structure RefreshTokenRow where
  id : Nat
  refresh_token : String
  created_at : Nat
  updated_at : Nat
  user_id : Option Nat
deriving DecidableEq

/-- The refresh_token table. -/
abbrev Db := List RefreshTokenRow

/-- Query the table for a token string (first match). -/
def queryToken : Db → String → Option RefreshTokenRow
  | [], _ => none
  | r :: db, tok => if r.refresh_token = tok then some r else queryToken db tok

/-- Modelled from the spec: replaceRefreshTokenUser of
services/auth.services.js, absent from the sources.  Spec section 9 records
that the source system uses implicit delete-then-recreate token handling, and
the schema offers no status column, so the rotation update rewrites the
stored token string of the matching row in place. -/
def replaceRefreshTokenUser (db : Db) (uid : Nat) (oldTok newTok : String) (now : Nat) : Db :=
  db.map (fun r =>
    if r.user_id = some uid ∧ r.refresh_token = oldTok then
      { r with refresh_token := newTok, updated_at := now }
    else r)

/-- Modelled from the spec: removeRefreshTokenUser of
services/auth.services.js, absent from the sources.  Called by logOut; the
schema offers no status column to mark a record revoked, so the call deletes
the matching rows. -/
def removeRefreshTokenUser : Db → Nat → String → Db
  | [], _, _ => []
  | r :: db, uid, tok =>
    if r.user_id = some uid ∧ r.refresh_token = tok then
      removeRefreshTokenUser db uid tok
    else r :: removeRefreshTokenUser db uid tok

end Schema

namespace Controller

/-- The user projection selected by loginUser. -/
structure User where
  _id : Nat
  email : String
  role : String
  password : String
deriving DecidableEq

/-- The mongoose virtual alias: user.id denotes the primary key. -/
def User.id (u : User) : Nat := u._id

/-- The payload handed to generateTokenSet and recovered by extractUser. -/
structure TokenPayload where
  id : Nat
  email : String
  role : String
deriving DecidableEq

/-- A freshly minted access and refresh token pair. -/
structure TokenSet where
  accessToken : String
  refreshToken : String
deriving DecidableEq

/-- A thrown javascript error, carrying what gets logged. -/
structure JsErr where
  msg : String
deriving DecidableEq

/-- The options object passed to res.cookie by loginUser and
refreshTokenSets.  The source literal carries the keys maxAge, secure,
httpOnly and samesite (all lowercase after the first word); javascript keys
are case sensitive, so the camelCase key sameSite, the one the cookie
serializer reads, is absent (modelled as none). -/
structure CookieOpts where
  maxAge : Nat
  secure : Bool
  httpOnly : Bool
  samesite : Option String
  sameSite : Option String
deriving DecidableEq

/-- The cookie options literal shared by loginUser and refreshTokenSets:
maxAge is refreshExpirationDays in milliseconds, secure exactly in
production, httpOnly set, and the misspelled samesite key set to none. -/
def cookieOptions (envName : String) (days : Nat) : CookieOpts :=
  { maxAge := days * 24 * 60 * 60 * 1000
  , secure := envName = "PRODUCTION"
  , httpOnly := true
  , samesite := some "none"
  , sameSite := none }

/-- The attributes of the serialized Set-Cookie header. -/
structure SetCookieAttrs where
  maxAgeSeconds : Option Nat
  secure : Bool
  httpOnly : Bool
  sameSite : Option String
deriving DecidableEq

/-- Modelled from the spec: the inbound web transport collaborator (spec
section 6) that serializes res.cookie options into Set-Cookie attributes.
The Max-Age attribute is the millisecond maxAge option floored to seconds,
Secure and HttpOnly follow the like-named options, and the SameSite
attribute is driven solely by the camelCase sameSite option; unrecognized
keys such as the lowercase samesite are ignored. -/
def serializeCookie (o : CookieOpts) : SetCookieAttrs :=
  { maxAgeSeconds := some (o.maxAge / 1000)
  , secure := o.secure
  , httpOnly := o.httpOnly
  , sameSite := o.sameSite }

/-- Observable effects of one controller invocation, in program order. -/
inductive Eff
  | log (key val : String)
  | lookupUser (email sel : String)
  | checkPw (pw hash : String)
  | assignTok (uid : Nat) (tok : String)
  | reuseCheck (tok : String)
  | replaceTok (uid : Nat) (oldTok newTok : String)
  | removeTok (uid : Nat) (tok : String)
  | setCookie (name val : String) (o : CookieOpts)
  | clearCookie (name : String)
  | send (status : Nat) (body : List (String × String))
  | sendStatus (status : Nat)
  | nextErr (msg : String) (status : Nat)
  | handleErr (msg : String)
deriving DecidableEq

/-- Modelled from the spec: the HTTP status constants of src/constants,
absent from the sources; spec section 6 fixes 400 and 401, and
INTERNAL_SERVER is the standard 500. -/
def BAD_REQUEST : Nat := 400

/-- Unauthorized status constant. -/
def UN_AUTHORIZED : Nat := 401

/-- Internal server error status constant. -/
def INTERNAL_SERVER : Nat := 500

/-- Resolved collaborator outcomes for one loginUser request: the parse of
the body, the user lookup, the password check, the minted token pair and the
refresh-token persistence, each able to throw. -/
structure LoginEnv where
  parse : Except JsErr (String × String)
  getUserByEmail : Except JsErr (Option User)
  checkPassword : Except JsErr Bool
  generateTokenSet : TokenSet
  assignRefreshToken : Except JsErr Unit
  envName : String
  refreshExpirationDays : Nat

/-- The loginUser handler, embedded from the controller source: parse the
body (a throw lands in the catch-all, which logs and fails 500), log the
plaintext email and password, look the user up, fail 400 with distinct
messages for an unknown user and for a wrong password, then mint tokens,
persist the refresh token, set the cookie and answer 200. -/
def loginUser (env : LoginEnv) : List Eff :=
  match env.parse with
  | Except.error e => [Eff.log "error" e.msg, Eff.nextErr "Something went wrong" INTERNAL_SERVER]
  | Except.ok (email, password) =>
    Eff.log "email" email :: Eff.log "password" password ::
    Eff.lookupUser email "_id email role password" ::
    match env.getUserByEmail with
    | Except.error e =>
      [Eff.log "error" e.msg, Eff.nextErr "Something went wrong" INTERNAL_SERVER]
    | Except.ok none => [Eff.nextErr "User does not exist" BAD_REQUEST]
    | Except.ok (some user) =>
      Eff.checkPw password user.password ::
      match env.checkPassword with
      | Except.error e =>
        [Eff.log "error" e.msg, Eff.nextErr "Something went wrong" INTERNAL_SERVER]
      | Except.ok false => [Eff.nextErr "Email or Password is incorrect" BAD_REQUEST]
      | Except.ok true =>
        Eff.assignTok user._id env.generateTokenSet.refreshToken ::
        match env.assignRefreshToken with
        | Except.error e =>
          [Eff.log "error" e.msg, Eff.nextErr "Something went wrong" INTERNAL_SERVER]
        | Except.ok _ =>
          [Eff.setCookie "refreshToken" env.generateTokenSet.refreshToken
             (cookieOptions env.envName env.refreshExpirationDays),
           Eff.send 200
             [("accessToken", env.generateTokenSet.accessToken),
              ("message", "Logged In Successfully!")]]

/-- Resolved collaborator outcomes for one refreshTokenSets request. -/
structure RefreshEnv where
  cookieToken : Option String
  extractUser : Except JsErr TokenPayload
  reuseDetection : Except JsErr Bool
  generateTokenSet : TokenSet
  replaceRefreshToken : Except JsErr Bool
  envName : String
  refreshExpirationDays : Nat

/-- The refreshTokenSets handler, embedded from the controller source: a
missing cookie clears the cookie and fails 401; a throw from extractUser or
a collaborator lands in handleRefreshTokenError; a detected reuse fails 401;
a truthy store update answers 201 with a fresh cookie; a falsy update falls
off the end of the handler without any response. -/
def refreshTokenSets (env : RefreshEnv) : List Eff :=
  match env.cookieToken with
  | none => [Eff.clearCookie "refreshToken", Eff.nextErr "No refresh token found" UN_AUTHORIZED]
  | some tok =>
    match env.extractUser with
    | Except.error e => [Eff.handleErr e.msg]
    | Except.ok u =>
      Eff.reuseCheck tok ::
      match env.reuseDetection with
      | Except.error e => [Eff.handleErr e.msg]
      | Except.ok true => [Eff.nextErr "Potential breach detected" UN_AUTHORIZED]
      | Except.ok false =>
        Eff.replaceTok u.id tok env.generateTokenSet.refreshToken ::
        match env.replaceRefreshToken with
        | Except.error e => [Eff.handleErr e.msg]
        | Except.ok true =>
          [Eff.setCookie "refreshToken" env.generateTokenSet.refreshToken
             (cookieOptions env.envName env.refreshExpirationDays),
           Eff.send 201 [("accessToken", env.generateTokenSet.accessToken)]]
        | Except.ok false => []

/-- Resolved collaborator outcomes for one logOut request. -/
structure LogoutEnv where
  cookieToken : Option String
  extractUser : Except JsErr TokenPayload
  reuseDetection : Except JsErr Bool
  removeRefreshToken : Except JsErr Unit

/-- The logOut handler, embedded from the controller source: the cookie is
cleared first, unconditionally; then a missing cookie fails 401, a detected
reuse fails 401, and otherwise the stored token is removed and 204 is
sent. -/
def logOut (env : LogoutEnv) : List Eff :=
  Eff.clearCookie "refreshToken" ::
  match env.cookieToken with
  | none => [Eff.nextErr "No Refresh Token Found" UN_AUTHORIZED]
  | some tok =>
    match env.extractUser with
    | Except.error e => [Eff.handleErr e.msg]
    | Except.ok u =>
      Eff.reuseCheck tok ::
      match env.reuseDetection with
      | Except.error e => [Eff.handleErr e.msg]
      | Except.ok true => [Eff.nextErr "Potential breach detected" UN_AUTHORIZED]
      | Except.ok false =>
        Eff.removeTok u.id tok ::
        match env.removeRefreshToken with
        | Except.error e => [Eff.handleErr e.msg]
        | Except.ok _ => [Eff.sendStatus 204]

/-- The statuses of the errors handed to the error middleware. -/
def errStatuses (t : List Eff) : List Nat :=
  t.filterMap (fun e =>
    match e with
    | Eff.nextErr _ s => some s
    | _ => none)

/-- The messages of the errors handed to the error middleware. -/
def errMessages (t : List Eff) : List String :=
  t.filterMap (fun e =>
    match e with
    | Eff.nextErr m _ => some m
    | _ => none)

/-- Whether an effect replies to the request: an HTTP response, an error
handed to the middleware, or the refresh-token error handler. -/
def isResponse (e : Eff) : Bool :=
  match e with
  | Eff.send _ _ => true
  | Eff.sendStatus _ => true
  | Eff.nextErr _ _ => true
  | Eff.handleErr _ => true
  | _ => false

end Controller

namespace Protocol

/-- Reachability invariant used for replay analysis: either the presented
token is still on record as rotated, or its whole lineage is already revoked
while the record remains on file. -/
def C1Inv (t lid : Nat) (s : Store) : Prop :=
  (∃ r, lookup s t = some r ∧ r.lineage_id = lid ∧ r.status = Status.rotated) ∨
  (allRevoked lid s ∧ ∃ r, lookup s t = some r ∧ r.lineage_id = lid)

end Protocol

namespace Race

open Protocol

/-- A finished winner: done with a success carrying its own fresh id. -/
def okState (w : Nat) : Caller := { phase := Phase.done (RotResult.ok w), fid := w }

/-- The store right after the winner with fresh id w committed: the
conditioned transition fired and exactly one successor record was inserted. -/
def SB (s0 : Store) (t : Nat) (r0 : TokenRec) (w : Nat) : Store :=
  casStore s0 t ++ [succRec r0 w]

/-- The store after some loser took the reuse path: the whole lineage,
winner successor included, is revoked. -/
def SC (s0 : Store) (t : Nat) (r0 : TokenRec) (w : Nat) : Store :=
  revokeLineage (SB s0 t r0 w) r0.lineage_id

/-- Race invariant, phase A: nobody has committed yet; the store is
untouched and every caller is unstarted or has observed the active token. -/
def InvA (s0 : Store) (cfg : Config) : Prop :=
  cfg.store = s0 ∧
  ∀ j c, cfg.callers.get? j = some c →
    c.phase = Phase.init ∨ c.phase = Phase.looked Obs.oActive

/-- Race invariant, phase B: exactly one winner has committed, nobody else
has finished, and the store holds the rotated record plus one successor. -/
def InvB (s0 : Store) (t : Nat) (r0 : TokenRec) (cfg : Config) : Prop :=
  ∃ i w, cfg.callers.get? i = some (okState w) ∧ cfg.store = SB s0 t r0 w ∧
    ∀ j c, j ≠ i → cfg.callers.get? j = some c →
      c.phase = Phase.init ∨ c.phase = Phase.looked Obs.oActive ∨
      c.phase = Phase.looked Obs.oRotated

/-- Race invariant, phase C: one winner, at least one loser that took the
reuse path, the lineage fully revoked, and every other caller unfinished or
finished with a reuse or revoked failure. -/
def InvC (s0 : Store) (t : Nat) (r0 : TokenRec) (cfg : Config) : Prop :=
  ∃ i w, cfg.callers.get? i = some (okState w) ∧ cfg.store = SC s0 t r0 w ∧
    (∃ m cm, cfg.callers.get? m = some cm ∧ cm.phase = Phase.done RotResult.errReuse) ∧
    ∀ j c, j ≠ i → cfg.callers.get? j = some c →
      c.phase = Phase.init ∨ c.phase = Phase.looked Obs.oActive ∨
      c.phase = Phase.looked Obs.oRotated ∨ c.phase = Phase.looked Obs.oRevoked ∨
      c.phase = Phase.done RotResult.errReuse ∨ c.phase = Phase.done RotResult.errRevoked

/-- The full race invariant. -/
def Inv (s0 : Store) (t : Nat) (r0 : TokenRec) (cfg : Config) : Prop :=
  InvA s0 cfg ∨ InvB s0 t r0 cfg ∨ InvC s0 t r0 cfg

end Race

namespace Demo

open Protocol Schema Controller

/-- A lineage whose root token 0 was already rotated into token 1. -/
def recC1 : TokenRec :=
  { token_id := 0, lineage_id := 5, parent_token_id := none, owner_id := 7
  , status := Status.rotated }

/-- Store for the replay demonstration: rotated root plus its active child. -/
def storeC1 : Store :=
  [recC1,
   { token_id := 1, lineage_id := 5, parent_token_id := some 0, owner_id := 7
   , status := Status.active }]

/-- Store with a single active root token, raced over by concurrent callers. -/
def storeRace : Store :=
  [{ token_id := 0, lineage_id := 1, parent_token_id := none, owner_id := 7
   , status := Status.active }]

/-- The active root record of storeRace. -/
def recRace : TokenRec :=
  { token_id := 0, lineage_id := 1, parent_token_id := none, owner_id := 7
  , status := Status.active }

/-- One persisted refresh-token row for user 7. -/
def dbC3 : Db :=
  [{ id := 1, refresh_token := "t0", created_at := 100, updated_at := 100
   , user_id := some 7 }]

/-- Store with one live lineage, used for the logout demonstration. -/
def storeC4 : Store :=
  [{ token_id := 0, lineage_id := 1, parent_token_id := none, owner_id := 7
   , status := Status.active }]

/-- The active record of storeC4. -/
def recC4 : TokenRec :=
  { token_id := 0, lineage_id := 1, parent_token_id := none, owner_id := 7
  , status := Status.active }

/-- A successful production login request. -/
def envC5 : LoginEnv :=
  { parse := Except.ok ("alice@mail.com", "pw123")
  , getUserByEmail := Except.ok (some { _id := 7, email := "alice@mail.com", role := "voter", password := "hash" })
  , checkPassword := Except.ok true
  , generateTokenSet := { accessToken := "acc0", refreshToken := "r0" }
  , assignRefreshToken := Except.ok ()
  , envName := "PRODUCTION"
  , refreshExpirationDays := 30 }

/-- A successful production refresh request. -/
def envC5r : RefreshEnv :=
  { cookieToken := some "r0"
  , extractUser := Except.ok { id := 7, email := "alice@mail.com", role := "voter" }
  , reuseDetection := Except.ok false
  , generateTokenSet := { accessToken := "acc1", refreshToken := "r1" }
  , replaceRefreshToken := Except.ok true
  , envName := "PRODUCTION"
  , refreshExpirationDays := 30 }

/-- A login request whose body fails validation: the schema parse throws. -/
def envC6bad : LoginEnv :=
  { parse := Except.error { msg := "ZodError: invalid body" }
  , getUserByEmail := Except.ok none
  , checkPassword := Except.ok false
  , generateTokenSet := { accessToken := "acc0", refreshToken := "r0" }
  , assignRefreshToken := Except.ok ()
  , envName := "DEVELOPMENT"
  , refreshExpirationDays := 30 }

/-- A login request for an email with no account. -/
def envC6unknown : LoginEnv :=
  { parse := Except.ok ("ghost@mail.com", "pw123")
  , getUserByEmail := Except.ok none
  , checkPassword := Except.ok false
  , generateTokenSet := { accessToken := "acc0", refreshToken := "r0" }
  , assignRefreshToken := Except.ok ()
  , envName := "DEVELOPMENT"
  , refreshExpirationDays := 30 }

/-- A login request with a known email but a wrong password. -/
def envC6wrong : LoginEnv :=
  { parse := Except.ok ("alice@mail.com", "wrong")
  , getUserByEmail := Except.ok (some { _id := 7, email := "alice@mail.com", role := "voter", password := "hash" })
  , checkPassword := Except.ok false
  , generateTokenSet := { accessToken := "acc0", refreshToken := "r0" }
  , assignRefreshToken := Except.ok ()
  , envName := "DEVELOPMENT"
  , refreshExpirationDays := 30 }

/-- A login request for an email with no account (credential-hint demo). -/
def envC7unknown : LoginEnv :=
  { parse := Except.ok ("ghost@mail.com", "pw123")
  , getUserByEmail := Except.ok none
  , checkPassword := Except.ok false
  , generateTokenSet := { accessToken := "acc0", refreshToken := "r0" }
  , assignRefreshToken := Except.ok ()
  , envName := "DEVELOPMENT"
  , refreshExpirationDays := 30 }

/-- A login request with a known email but a wrong password
(credential-hint demo). -/
def envC7wrong : LoginEnv :=
  { parse := Except.ok ("alice@mail.com", "wrong")
  , getUserByEmail := Except.ok (some { _id := 7, email := "alice@mail.com", role := "voter", password := "hash" })
  , checkPassword := Except.ok false
  , generateTokenSet := { accessToken := "acc0", refreshToken := "r0" }
  , assignRefreshToken := Except.ok ()
  , envName := "DEVELOPMENT"
  , refreshExpirationDays := 30 }

/-- A parseable login request, for the credential-logging demonstration. -/
def envC8 : LoginEnv :=
  { parse := Except.ok ("alice@mail.com", "hunter2")
  , getUserByEmail := Except.ok none
  , checkPassword := Except.ok false
  , generateTokenSet := { accessToken := "acc0", refreshToken := "r0" }
  , assignRefreshToken := Except.ok ()
  , envName := "DEVELOPMENT"
  , refreshExpirationDays := 30 }

/-- A refresh request that passes reuse detection but whose store update
resolves to a falsy value. -/
def envC9 : RefreshEnv :=
  { cookieToken := some "r0"
  , extractUser := Except.ok { id := 7, email := "alice@mail.com", role := "voter" }
  , reuseDetection := Except.ok false
  , generateTokenSet := { accessToken := "acc1", refreshToken := "r1" }
  , replaceRefreshToken := Except.ok false
  , envName := "DEVELOPMENT"
  , refreshExpirationDays := 30 }

end Demo

open Protocol Race Schema Controller Demo

/-- Claim C3: the claim says no core operation ever deletes a refresh-token
record and that rotated and revoked records stay queryable; on this code the
refresh_token model has no status column, rotation overwrites the stored
token string in place and logout deletes the row, so the old token is no
longer queryable after either operation. -/
theorem claim_c3_store_discards_old_records :
    Schema.queryToken dbC3 "t0" =
      some { id := 1, refresh_token := "t0", created_at := 100, updated_at := 100
           , user_id := some 7 } ∧
    Schema.queryToken (Schema.replaceRefreshTokenUser dbC3 7 "t0" "t1" 200) "t0" = none ∧
    Schema.removeRefreshTokenUser dbC3 7 "t0" = [] := by
  refine ⟨?_, ?_, ?_⟩ <;> decide

/-- Claim C5: the claim says every successful login and refresh sets the
refresh cookie with HttpOnly, Secure in production, SameSite None and the
configured Max-Age; the code passes the misspelled lowercase key samesite,
which the cookie serializer ignores, so the serialized cookie carries
HttpOnly, Secure and Max-Age but no SameSite attribute at all. -/
theorem claim_c5_cookie_lacks_samesite :
    Controller.Eff.setCookie "refreshToken" "r0" (Controller.cookieOptions "PRODUCTION" 30)
      ∈ Controller.loginUser envC5 ∧
    Controller.Eff.send 200 [("accessToken", "acc0"), ("message", "Logged In Successfully!")]
      ∈ Controller.loginUser envC5 ∧
    Controller.Eff.setCookie "refreshToken" "r1" (Controller.cookieOptions "PRODUCTION" 30)
      ∈ Controller.refreshTokenSets envC5r ∧
    Controller.serializeCookie (Controller.cookieOptions "PRODUCTION" 30) =
      { maxAgeSeconds := some (30 * 24 * 60 * 60), secure := true, httpOnly := true
      , sameSite := none } := by
  refine ⟨?_, ?_, ?_, ?_⟩ <;> decide

/-- Claim C6, counterexample: a login request whose body fails validation is
answered with a 500 internal error, not with the claimed 400. -/
theorem claim_c6_counterexample :
    Controller.loginUser envC6bad =
      [Controller.Eff.log "error" "ZodError: invalid body",
       Controller.Eff.nextErr "Something went wrong" Controller.INTERNAL_SERVER] ∧
    Controller.errStatuses (Controller.loginUser envC6bad) = [500] ∧
    (500 : Nat) ≠ 400 := by
  refine ⟨rfl, rfl, by decide⟩

/-- Claim C6, amended: failed logins caused by wrong credentials (unknown
email or wrong password) return 400, but a malformed body lands in the
catch-all and returns 500. -/
theorem claim_c6_amended_login_failure_statuses (env : Controller.LoginEnv) :
    (∀ e, env.parse = Except.error e →
      Controller.errStatuses (Controller.loginUser env) = [Controller.INTERNAL_SERVER]) ∧
    (∀ ep, env.parse = Except.ok ep → env.getUserByEmail = Except.ok none →
      Controller.errStatuses (Controller.loginUser env) = [Controller.BAD_REQUEST]) ∧
    (∀ ep user, env.parse = Except.ok ep → env.getUserByEmail = Except.ok (some user) →
      env.checkPassword = Except.ok false →
      Controller.errStatuses (Controller.loginUser env) = [Controller.BAD_REQUEST]) := by
  refine ⟨?_, ?_, ?_⟩
  · intro e h
    unfold Controller.loginUser
    rw [h]
    rfl
  · intro ep h1 h2
    obtain ⟨em, pw⟩ := ep
    unfold Controller.loginUser
    rw [h1, h2]
    rfl
  · intro ep user h1 h2 h3
    obtain ⟨em, pw⟩ := ep
    unfold Controller.loginUser
    rw [h1, h2, h3]
    rfl

/-- Claim C6, witness: the amended statement applied to the three concrete
requests. -/
theorem claim_c6_amended_witness :
    Controller.errStatuses (Controller.loginUser envC6bad) = [Controller.INTERNAL_SERVER] ∧
    Controller.errStatuses (Controller.loginUser envC6unknown) = [Controller.BAD_REQUEST] ∧
    Controller.errStatuses (Controller.loginUser envC6wrong) = [Controller.BAD_REQUEST] :=
  ⟨(claim_c6_amended_login_failure_statuses envC6bad).1 { msg := "ZodError: invalid body" } rfl,
   (claim_c6_amended_login_failure_statuses envC6unknown).2.1 ("ghost@mail.com", "pw123") rfl rfl,
   (claim_c6_amended_login_failure_statuses envC6wrong).2.2 ("alice@mail.com", "wrong")
     { _id := 7, email := "alice@mail.com", role := "voter", password := "hash" } rfl rfl rfl⟩

/-- Claim C7, counterexample: the two credential failures surface different
messages, so the response does reveal whether the email exists. -/
theorem claim_c7_counterexample :
    Controller.errMessages (Controller.loginUser envC7unknown) = ["User does not exist"] ∧
    Controller.errMessages (Controller.loginUser envC7wrong) = ["Email or Password is incorrect"] ∧
    ("User does not exist" : String) ≠ "Email or Password is incorrect" := by
  refine ⟨rfl, rfl, by decide⟩

/-- Claim C7, amended: both credential failures are 400 errors, but with
distinct messages, one naming the missing user and one blaming the
credentials generically. -/
theorem claim_c7_amended_distinct_messages (env : Controller.LoginEnv) :
    (∀ ep, env.parse = Except.ok ep → env.getUserByEmail = Except.ok none →
      Controller.errMessages (Controller.loginUser env) = ["User does not exist"] ∧
      Controller.errStatuses (Controller.loginUser env) = [Controller.BAD_REQUEST]) ∧
    (∀ ep user, env.parse = Except.ok ep → env.getUserByEmail = Except.ok (some user) →
      env.checkPassword = Except.ok false →
      Controller.errMessages (Controller.loginUser env) = ["Email or Password is incorrect"] ∧
      Controller.errStatuses (Controller.loginUser env) = [Controller.BAD_REQUEST]) ∧
    ("User does not exist" : String) ≠ "Email or Password is incorrect" := by
  refine ⟨?_, ?_, by decide⟩
  · intro ep h1 h2
    obtain ⟨em, pw⟩ := ep
    unfold Controller.loginUser
    rw [h1, h2]
    exact ⟨rfl, rfl⟩
  · intro ep user h1 h2 h3
    obtain ⟨em, pw⟩ := ep
    unfold Controller.loginUser
    rw [h1, h2, h3]
    exact ⟨rfl, rfl⟩

/-- Claim C7, witness: the amended statement applied to the two concrete
requests. -/
theorem claim_c7_amended_witness :
    Controller.errMessages (Controller.loginUser envC7unknown) = ["User does not exist"] ∧
    Controller.errMessages (Controller.loginUser envC7wrong) = ["Email or Password is incorrect"] :=
  ⟨((claim_c7_amended_distinct_messages envC7unknown).1 ("ghost@mail.com", "pw123") rfl rfl).1,
   ((claim_c7_amended_distinct_messages envC7wrong).2.1 ("alice@mail.com", "wrong")
     { _id := 7, email := "alice@mail.com", role := "voter", password := "hash" } rfl rfl rfl).1⟩

/-- Claim C8: whenever the body parses, the submitted email and plaintext
password are logged as the first two effects, before the user lookup that
starts the authentication check, whatever the outcome of the login. -/
theorem claim_c8_logs_credentials (env : Controller.LoginEnv) (email password : String)
    (h : env.parse = Except.ok (email, password)) :
    ∃ rest, Controller.loginUser env =
      Controller.Eff.log "email" email :: Controller.Eff.log "password" password ::
      Controller.Eff.lookupUser email "_id email role password" :: rest := by
  unfold Controller.loginUser
  rw [h]
  exact ⟨_, rfl⟩

/-- Claim C8, witness: the logging statement at a concrete request. -/
theorem claim_c8_witness :
    ∃ rest, Controller.loginUser envC8 =
      Controller.Eff.log "email" "alice@mail.com" ::
      Controller.Eff.log "password" "hunter2" ::
      Controller.Eff.lookupUser "alice@mail.com" "_id email role password" :: rest :=
  claim_c8_logs_credentials envC8 "alice@mail.com" "hunter2" rfl

/-- Claim C9: when the token passes reuse detection but the store update
resolves to a falsy value without throwing, the handler emits no HTTP
response and invokes no error handler: the request gets no reply. -/
theorem claim_c9_no_reply_on_falsy_replace (env : Controller.RefreshEnv) (tok : String)
    (u : Controller.TokenPayload)
    (hck : env.cookieToken = some tok)
    (hex : env.extractUser = Except.ok u)
    (hrd : env.reuseDetection = Except.ok false)
    (hrp : env.replaceRefreshToken = Except.ok false) :
    (Controller.refreshTokenSets env).all (fun e => !Controller.isResponse e) = true := by
  unfold Controller.refreshTokenSets
  rw [hck, hex, hrd, hrp]
  rfl

/-- Claim C9, witness: the no-reply statement at a concrete request. -/
theorem claim_c9_witness :
    (Controller.refreshTokenSets envC9).all (fun e => !Controller.isResponse e) = true :=
  claim_c9_no_reply_on_falsy_replace envC9 "r0"
    { id := 7, email := "alice@mail.com", role := "voter" } rfl rfl rfl rfl

/-- Claim C10: logOut clears the refreshToken cookie as its very first
action, on every request, including the ones that later fail 401 for a
missing token or a detected breach. -/
theorem claim_c10_clear_cookie_first (env : Controller.LogoutEnv) :
    ∃ rest, Controller.logOut env = Controller.Eff.clearCookie "refreshToken" :: rest :=
  ⟨_, rfl⟩


namespace Protocol

theorem lookup_token_id {t : Nat} {r : TokenRec} :
    ∀ {s : Store}, lookup s t = some r → r.token_id = t := by
  intro s
  induction s with
  | nil => intro h; simp [lookup] at h
  | cons q s ih =>
    intro h
    simp only [lookup] at h
    split at h
    · cases h; assumption
    · exact ih h

theorem lookup_mem {t : Nat} {r : TokenRec} :
    ∀ {s : Store}, lookup s t = some r → r ∈ s := by
  intro s
  induction s with
  | nil => intro h; simp [lookup] at h
  | cons q s ih =>
    intro h
    simp only [lookup] at h
    split at h
    · cases h; exact List.mem_cons_self _ _
    · exact List.mem_cons_of_mem _ (ih h)

theorem lookup_map (g : TokenRec → TokenRec) (hg : ∀ r, (g r).token_id = r.token_id) :
    ∀ (s : Store) (t : Nat), lookup (s.map g) t = (lookup s t).map g := by
  intro s
  induction s with
  | nil => intro t; rfl
  | cons q s ih =>
    intro t
    simp only [List.map_cons, lookup, hg q]
    by_cases hq : q.token_id = t
    · rw [if_pos hq, if_pos hq, Option.map_some']
    · rw [if_neg hq, if_neg hq]
      exact ih t

theorem lookup_append_some {s2 : Store} {t : Nat} {r : TokenRec} :
    ∀ {s1 : Store}, lookup s1 t = some r → lookup (s1 ++ s2) t = some r := by
  intro s1
  induction s1 with
  | nil => intro h; simp [lookup] at h
  | cons q s1 ih =>
    intro h
    simp only [lookup] at h
    simp only [List.cons_append, lookup]
    split at h
    · rename_i hq
      rw [if_pos hq]
      exact h
    · rename_i hq
      rw [if_neg hq]
      exact ih h

theorem casUpd_token_id (t : Nat) (r : TokenRec) : (casUpd t r).token_id = r.token_id := by
  unfold casUpd
  split <;> rfl

theorem casUpd_lineage_id (t : Nat) (r : TokenRec) : (casUpd t r).lineage_id = r.lineage_id := by
  unfold casUpd
  split <;> rfl

theorem revokeUpd_token_id (lid : Nat) (r : TokenRec) : (revokeUpd lid r).token_id = r.token_id := by
  unfold revokeUpd
  split <;> rfl

theorem revokeUpd_lineage_id (lid : Nat) (r : TokenRec) :
    (revokeUpd lid r).lineage_id = r.lineage_id := by
  unfold revokeUpd
  split <;> rfl

theorem casUpd_of_not_active {r : TokenRec} (t : Nat) (h : r.status ≠ Status.active) :
    casUpd t r = r := by
  unfold casUpd
  rw [if_neg (fun hc => h hc.2)]

theorem casUpd_of_active {t : Nat} {r : TokenRec}
    (h1 : r.token_id = t) (h2 : r.status = Status.active) :
    casUpd t r = { r with status := Status.rotated } := by
  unfold casUpd
  rw [if_pos ⟨h1, h2⟩]

theorem revokeUpd_of_lineage {lid : Nat} {r : TokenRec} (h : r.lineage_id = lid) :
    revokeUpd lid r = { r with status := Status.revoked } := by
  unfold revokeUpd
  rw [if_pos h]

theorem revokeUpd_of_ne {lid : Nat} {r : TokenRec} (h : r.lineage_id ≠ lid) :
    revokeUpd lid r = r := by
  unfold revokeUpd
  rw [if_neg h]

theorem revokeUpd_of_revoked {lid : Nat} {r : TokenRec} (h : r.status = Status.revoked) :
    revokeUpd lid r = r := by
  unfold revokeUpd
  split
  · cases r with
    | mk a b c d st =>
      cases h
      rfl
  · rfl

theorem rotate_lookup_none {s : Store} {t fid : Nat} (h : lookup s t = none) :
    rotate s t fid = (RotResult.errUnknown, s) := by
  simp only [rotate, h]

theorem rotate_lookup_revoked {s : Store} {t fid : Nat} {r : TokenRec}
    (h : lookup s t = some r) (hr : r.status = Status.revoked) :
    rotate s t fid = (RotResult.errRevoked, s) := by
  simp only [rotate, h, hr]

theorem rotate_lookup_rotated {s : Store} {t fid : Nat} {r : TokenRec}
    (h : lookup s t = some r) (hr : r.status = Status.rotated) :
    rotate s t fid = (RotResult.errReuse, revokeLineage s r.lineage_id) := by
  simp only [rotate, h, hr]

theorem rotate_lookup_active {s : Store} {t fid : Nat} {r : TokenRec}
    (h : lookup s t = some r) (hr : r.status = Status.active) :
    rotate s t fid = (RotResult.ok fid, casStore s t ++ [succRec r fid]) := by
  simp only [rotate, h, hr]

theorem logout_lookup_none {s : Store} {t : Nat} (h : lookup s t = none) :
    logout s t = (LogoutResult.errUnknown, s) := by
  simp only [logout, h]

theorem logout_lookup_some {s : Store} {t : Nat} {r : TokenRec} (h : lookup s t = some r) :
    logout s t = (LogoutResult.ok, revokeLineage s r.lineage_id) := by
  simp only [logout, h]

theorem allRevoked_revokeLineage (s : Store) (lid : Nat) : allRevoked lid (revokeLineage s lid) := by
  intro q hq hql
  unfold revokeLineage at hq
  obtain ⟨p, hp, rfl⟩ := List.mem_map.mp hq
  by_cases hpl : p.lineage_id = lid
  · rw [revokeUpd_of_lineage hpl]
  · rw [revokeUpd_of_ne hpl] at hql ⊢
    exact absurd hql hpl

theorem allRevoked_map {lid : Nat} {s : Store} (h : allRevoked lid s)
    (g : TokenRec → TokenRec)
    (hlin : ∀ r, (g r).lineage_id = r.lineage_id)
    (hfix : ∀ r, r.status = Status.revoked → g r = r) :
    allRevoked lid (s.map g) := by
  intro q hq hql
  obtain ⟨p, hp, rfl⟩ := List.mem_map.mp hq
  rw [hlin p] at hql
  have hrev := h p hp hql
  rw [hfix p hrev]
  exact hrev

theorem allRevoked_append {lid : Nat} {s1 s2 : Store}
    (h1 : allRevoked lid s1) (h2 : allRevoked lid s2) : allRevoked lid (s1 ++ s2) := by
  intro q hq
  rcases List.mem_append.mp hq with hm | hm
  · exact h1 q hm
  · exact h2 q hm

theorem revokeLineage_of_allRevoked {lid : Nat} {s : Store} (h : allRevoked lid s) :
    revokeLineage s lid = s := by
  unfold revokeLineage
  induction s with
  | nil => rfl
  | cons q s ih =>
    rw [List.map_cons]
    have hq : revokeUpd lid q = q := by
      by_cases hql : q.lineage_id = lid
      · exact revokeUpd_of_revoked (h q (List.mem_cons_self _ _) hql)
      · exact revokeUpd_of_ne hql
    rw [hq, ih (fun p hp hpl => h p (List.mem_cons_of_mem _ hp) hpl)]

theorem revokeLineage_idem (s : Store) (lid : Nat) :
    revokeLineage (revokeLineage s lid) lid = revokeLineage s lid :=
  revokeLineage_of_allRevoked (allRevoked_revokeLineage s lid)

theorem allRevoked_applyOp {lid : Nat} {s : Store} (h : allRevoked lid s) (op : Op) :
    allRevoked lid (applyOp s op) := by
  cases op with
  | rot t fid =>
    show allRevoked lid (rotate s t fid).2
    cases hl : lookup s t with
    | none => rw [rotate_lookup_none hl]; exact h
    | some r =>
      cases hr : r.status with
      | revoked => rw [rotate_lookup_revoked hl hr]; exact h
      | rotated =>
        rw [rotate_lookup_rotated hl hr]
        exact allRevoked_map h (revokeUpd r.lineage_id)
          (fun p => revokeUpd_lineage_id _ _) (fun p hp => revokeUpd_of_revoked hp)
      | active =>
        rw [rotate_lookup_active hl hr]
        apply allRevoked_append
        · exact allRevoked_map h (casUpd t) (fun p => casUpd_lineage_id _ _)
            (fun p hp => casUpd_of_not_active t (by rw [hp]; simp))
        · intro q hq hql
          rw [List.mem_singleton.mp hq] at hql ⊢
          have hrl : r.lineage_id = lid := hql
          have hcontra := h r (lookup_mem hl) hrl
          rw [hr] at hcontra
          cases hcontra
  | lout t =>
    show allRevoked lid (logout s t).2
    cases hl : lookup s t with
    | none => rw [logout_lookup_none hl]; exact h
    | some r =>
      rw [logout_lookup_some hl]
      exact allRevoked_map h (revokeUpd r.lineage_id)
        (fun p => revokeUpd_lineage_id _ _) (fun p hp => revokeUpd_of_revoked hp)

theorem allRevoked_runOps {lid : Nat} (ops : List Op) :
    ∀ {s : Store}, allRevoked lid s → allRevoked lid (runOps s ops) := by
  induction ops with
  | nil => intro s h; exact h
  | cons op ops ih => intro s h; exact ih (allRevoked_applyOp h op)

theorem rotate_of_allRevoked {lid : Nat} {s : Store} (h : allRevoked lid s)
    {t : Nat} {r : TokenRec} (hl : lookup s t = some r) (hr : r.lineage_id = lid) (fid : Nat) :
    rotate s t fid = (RotResult.errRevoked, s) :=
  rotate_lookup_revoked hl (h r (lookup_mem hl) hr)

theorem lookup_applyOp {s : Store} {t : Nat} {r : TokenRec}
    (hl : lookup s t = some r) (op : Op) :
    ∃ q, lookup (applyOp s op) t = some q ∧ q.lineage_id = r.lineage_id := by
  cases op with
  | rot t2 fid =>
    show ∃ q, lookup (rotate s t2 fid).2 t = some q ∧ q.lineage_id = r.lineage_id
    cases hl2 : lookup s t2 with
    | none => rw [rotate_lookup_none hl2]; exact ⟨r, hl, rfl⟩
    | some p =>
      cases hp : p.status with
      | revoked => rw [rotate_lookup_revoked hl2 hp]; exact ⟨r, hl, rfl⟩
      | rotated =>
        rw [rotate_lookup_rotated hl2 hp]
        refine ⟨revokeUpd p.lineage_id r, ?_, revokeUpd_lineage_id _ _⟩
        show lookup (revokeLineage s p.lineage_id) t = _
        rw [revokeLineage, lookup_map _ (revokeUpd_token_id _), hl, Option.map_some']
      | active =>
        rw [rotate_lookup_active hl2 hp]
        refine ⟨casUpd t2 r, ?_, casUpd_lineage_id _ _⟩
        apply lookup_append_some
        rw [casStore, lookup_map _ (casUpd_token_id _), hl, Option.map_some']
  | lout t2 =>
    show ∃ q, lookup (logout s t2).2 t = some q ∧ q.lineage_id = r.lineage_id
    cases hl2 : lookup s t2 with
    | none => rw [logout_lookup_none hl2]; exact ⟨r, hl, rfl⟩
    | some p =>
      rw [logout_lookup_some hl2]
      refine ⟨revokeUpd p.lineage_id r, ?_, revokeUpd_lineage_id _ _⟩
      show lookup (revokeLineage s p.lineage_id) t = _
      rw [revokeLineage, lookup_map _ (revokeUpd_token_id _), hl, Option.map_some']

theorem C1Inv_revoke_aux {t lid : Nat} {s : Store} {r : TokenRec} (lid2 : Nat)
    (hl : lookup s t = some r) (hlin : r.lineage_id = lid) (hrot : r.status = Status.rotated) :
    C1Inv t lid (revokeLineage s lid2) := by
  by_cases hpl : lid2 = lid
  · subst hpl
    refine Or.inr ⟨allRevoked_revokeLineage s lid2, revokeUpd lid2 r, ?_, ?_⟩
    · rw [revokeLineage, lookup_map _ (revokeUpd_token_id _), hl, Option.map_some']
    · rw [revokeUpd_lineage_id]
      exact hlin
  · refine Or.inl ⟨r, ?_, hlin, hrot⟩
    rw [revokeLineage, lookup_map _ (revokeUpd_token_id _), hl, Option.map_some',
        revokeUpd_of_ne (by rw [hlin]; exact fun he => hpl he.symm)]

theorem C1Inv_applyOp {t lid : Nat} {s : Store} (h : C1Inv t lid s) (op : Op) :
    C1Inv t lid (applyOp s op) := by
  rcases h with ⟨r, hl, hlin, hrot⟩ | ⟨hall, r, hl, hlin⟩
  · cases op with
    | rot t2 fid =>
      show C1Inv t lid (rotate s t2 fid).2
      cases hl2 : lookup s t2 with
      | none => rw [rotate_lookup_none hl2]; exact Or.inl ⟨r, hl, hlin, hrot⟩
      | some p =>
        cases hp : p.status with
        | revoked => rw [rotate_lookup_revoked hl2 hp]; exact Or.inl ⟨r, hl, hlin, hrot⟩
        | rotated =>
          rw [rotate_lookup_rotated hl2 hp]
          exact C1Inv_revoke_aux p.lineage_id hl hlin hrot
        | active =>
          rw [rotate_lookup_active hl2 hp]
          refine Or.inl ⟨r, ?_, hlin, hrot⟩
          have hne : r.status ≠ Status.active := by rw [hrot]; simp
          apply lookup_append_some
          rw [casStore, lookup_map _ (casUpd_token_id _), hl, Option.map_some',
              casUpd_of_not_active _ hne]
    | lout t2 =>
      show C1Inv t lid (logout s t2).2
      cases hl2 : lookup s t2 with
      | none => rw [logout_lookup_none hl2]; exact Or.inl ⟨r, hl, hlin, hrot⟩
      | some p =>
        rw [logout_lookup_some hl2]
        exact C1Inv_revoke_aux p.lineage_id hl hlin hrot
  · refine Or.inr ⟨allRevoked_applyOp hall op, ?_⟩
    obtain ⟨q, hq, hql⟩ := lookup_applyOp hl op
    exact ⟨q, hq, by rw [hql]; exact hlin⟩

theorem C1Inv_runOps {t lid : Nat} (ops : List Op) :
    ∀ {s : Store}, C1Inv t lid s → C1Inv t lid (runOps s ops) := by
  induction ops with
  | nil => intro s h; exact h
  | cons op ops ih => intro s h; exact ih (C1Inv_applyOp h op)

end Protocol

/-- Claim C1: replaying a rotated token through the Rotation Engine of
refreshTokenSets, after any interleaved sequence of store operations, fails
with the reuse or revoked unauthorized error, leaves every record of the
lineage revoked, and no token of that lineage can ever be rotated
afterwards. -/
theorem claim_c1_rotated_replay_fails_and_revokes
    (s : Store) (t : Nat) (r : TokenRec) (ops : List Op) (fid : Nat)
    (h : lookup s t = some r) (hrot : r.status = Status.rotated) :
    ((rotate (runOps s ops) t fid).1 = RotResult.errReuse ∨
     (rotate (runOps s ops) t fid).1 = RotResult.errRevoked) ∧
    allRevoked r.lineage_id (rotate (runOps s ops) t fid).2 ∧
    ∀ ops2 t2 q2 fid2 n,
      lookup (runOps (rotate (runOps s ops) t fid).2 ops2) t2 = some q2 →
      q2.lineage_id = r.lineage_id →
      (rotate (runOps (rotate (runOps s ops) t fid).2 ops2) t2 fid2).1 ≠ RotResult.ok n := by
  have hinv : C1Inv t r.lineage_id (runOps s ops) :=
    C1Inv_runOps ops (Or.inl ⟨r, h, rfl, hrot⟩)
  have key : ((rotate (runOps s ops) t fid).1 = RotResult.errReuse ∨
              (rotate (runOps s ops) t fid).1 = RotResult.errRevoked) ∧
             allRevoked r.lineage_id (rotate (runOps s ops) t fid).2 := by
    rcases hinv with ⟨p, hp, hpl, hps⟩ | ⟨hall, p, hp, hpl⟩
    · rw [rotate_lookup_rotated hp hps]
      refine ⟨Or.inl rfl, ?_⟩
      show allRevoked r.lineage_id (revokeLineage (runOps s ops) p.lineage_id)
      rw [hpl]
      exact allRevoked_revokeLineage _ _
    · rw [rotate_of_allRevoked hall hp hpl fid]
      exact ⟨Or.inr rfl, hall⟩
  refine ⟨key.1, key.2, ?_⟩
  intro ops2 t2 q2 fid2 n hq2 hq2l hcon
  have hall2 : allRevoked r.lineage_id (runOps (rotate (runOps s ops) t fid).2 ops2) :=
    allRevoked_runOps ops2 key.2
  rw [rotate_of_allRevoked hall2 hq2 hq2l fid2] at hcon
  cases hcon

/-- Claim C1, witness: the replay statement at a concrete two-record
lineage whose root is already rotated. -/
theorem claim_c1_witness :
    ((rotate (runOps storeC1 []) 0 2).1 = RotResult.errReuse ∨
     (rotate (runOps storeC1 []) 0 2).1 = RotResult.errRevoked) ∧
    allRevoked recC1.lineage_id (rotate (runOps storeC1 []) 0 2).2 :=
  ⟨(claim_c1_rotated_replay_fails_and_revokes storeC1 0 recC1 [] 2 rfl rfl).1,
   (claim_c1_rotated_replay_fails_and_revokes storeC1 0 recC1 [] 2 rfl rfl).2.1⟩

/-- Claim C4, counterexample: after logging out a valid token, a second
logout with the same token succeeds trivially instead of failing, per the
idempotent-logout clause of spec section 4.4. -/
theorem claim_c4_counterexample :
    lookup storeC4 0 = some recC4 ∧
    recC4.status ≠ Status.revoked ∧
    (logout storeC4 0).1 = LogoutResult.ok ∧
    (logout (logout storeC4 0).2 0).1 = LogoutResult.ok := by
  refine ⟨?_, ?_, ?_, ?_⟩ <;> decide

/-- Claim C4, amended: logging out a valid token revokes every record of its
lineage; afterwards every rotation of any token of that lineage fails, and
every further logout of any token of that lineage succeeds trivially
(idempotently) without changing the store. -/
theorem claim_c4_amended_logout_revokes
    (s : Store) (t : Nat) (r : TokenRec)
    (h : lookup s t = some r) (hval : r.status ≠ Status.revoked) :
    (logout s t).1 = LogoutResult.ok ∧
    allRevoked r.lineage_id (logout s t).2 ∧
    ∀ ops t2 q2,
      lookup (runOps (logout s t).2 ops) t2 = some q2 →
      q2.lineage_id = r.lineage_id →
      (∀ fid n, (rotate (runOps (logout s t).2 ops) t2 fid).1 ≠ RotResult.ok n) ∧
      (logout (runOps (logout s t).2 ops) t2).1 = LogoutResult.ok ∧
      (logout (runOps (logout s t).2 ops) t2).2 = runOps (logout s t).2 ops := by
  rw [logout_lookup_some h]
  refine ⟨rfl, allRevoked_revokeLineage s r.lineage_id, ?_⟩
  intro ops t2 q2 hq2 hql
  have hall : allRevoked r.lineage_id (runOps (revokeLineage s r.lineage_id) ops) :=
    allRevoked_runOps ops (allRevoked_revokeLineage s r.lineage_id)
  refine ⟨?_, ?_, ?_⟩
  · intro fid n hcon
    rw [rotate_of_allRevoked hall hq2 hql fid] at hcon
    cases hcon
  · rw [logout_lookup_some hq2]
  · rw [logout_lookup_some hq2]
    show revokeLineage _ q2.lineage_id = _
    rw [hql]
    exact revokeLineage_of_allRevoked hall

/-- Claim C4, witness: the amended logout statement at a concrete one-record
live lineage. -/
theorem claim_c4_witness :
    (logout storeC4 0).1 = LogoutResult.ok ∧
    allRevoked recC4.lineage_id (logout storeC4 0).2 :=
  ⟨(claim_c4_amended_logout_revokes storeC4 0 recC4 rfl (by decide)).1,
   (claim_c4_amended_logout_revokes storeC4 0 recC4 rfl (by decide)).2.1⟩

namespace Race

theorem get?_set_self {α : Type _} :
    ∀ (l : List α) (i : Nat) (a b : α), l.get? i = some b → (l.set i a).get? i = some a
  | [], _, _, _, h => by simp [List.get?] at h
  | _ :: _, 0, _, _, _ => rfl
  | _ :: l, i+1, a, b, h => get?_set_self l i a b h

theorem get?_set_ne {α : Type _} :
    ∀ (l : List α) (i j : Nat) (a : α), i ≠ j → (l.set i a).get? j = l.get? j
  | [], _, _, _, _ => rfl
  | _ :: _, 0, 0, _, hne => absurd rfl hne
  | _ :: _, 0, _+1, _, _ => rfl
  | _ :: _, _+1, 0, _, _ => rfl
  | _ :: l, i+1, j+1, a, hne => get?_set_ne l i j a (fun he => hne (by rw [he]))

theorem get?_some_of_lt {α : Type _} :
    ∀ (l : List α) (j : Nat), j < l.length → ∃ c, l.get? j = some c
  | [], j, h => absurd h (Nat.not_lt_zero j)
  | x :: _, 0, _ => ⟨x, rfl⟩
  | _ :: l, j+1, h => get?_some_of_lt l j (Nat.lt_of_succ_lt_succ h)

theorem get?_map_aux {α β : Type _} (f : α → β) :
    ∀ (l : List α) (j : Nat), (l.map f).get? j = (l.get? j).map f
  | [], _ => rfl
  | _ :: _, 0 => rfl
  | _ :: l, j+1 => get?_map_aux f l j

theorem observe_active {s : Store} {t : Nat} {r : TokenRec}
    (hl : lookup s t = some r) (hr : r.status = Status.active) : observe s t = Obs.oActive := by
  simp only [observe, hl, hr]

theorem observe_rotated {s : Store} {t : Nat} {r : TokenRec}
    (hl : lookup s t = some r) (hr : r.status = Status.rotated) : observe s t = Obs.oRotated := by
  simp only [observe, hl, hr]

theorem observe_revoked {s : Store} {t : Nat} {r : TokenRec}
    (hl : lookup s t = some r) (hr : r.status = Status.revoked) : observe s t = Obs.oRevoked := by
  simp only [observe, hl, hr]

theorem stepCaller_init (t : Nat) (s : Store) (c : Caller) (hc : c.phase = Phase.init) :
    stepCaller t s c = (s, { phase := Phase.looked (observe s t), fid := c.fid }) := by
  simp only [stepCaller, hc]

theorem stepCaller_done (t : Nat) (s : Store) (c : Caller) (res : RotResult)
    (hc : c.phase = Phase.done res) :
    stepCaller t s c = (s, { phase := Phase.done res, fid := c.fid }) := by
  simp only [stepCaller, hc]

theorem stepCaller_revoked (t : Nat) (s : Store) (c : Caller)
    (hc : c.phase = Phase.looked Obs.oRevoked) :
    stepCaller t s c = (s, { phase := Phase.done RotResult.errRevoked, fid := c.fid }) := by
  simp only [stepCaller, hc]

theorem stepCaller_rotated_lookup (t : Nat) {s : Store} (c : Caller) {r : TokenRec}
    (hc : c.phase = Phase.looked Obs.oRotated) (hl : lookup s t = some r) :
    stepCaller t s c =
      (revokeLineage s r.lineage_id,
       { phase := Phase.done RotResult.errReuse, fid := c.fid }) := by
  simp only [stepCaller, hc, hl]

theorem stepCaller_active_cas_ok (t : Nat) {s : Store} (c : Caller) {r : TokenRec}
    (hc : c.phase = Phase.looked Obs.oActive) (hl : lookup s t = some r)
    (hr : r.status = Status.active) :
    stepCaller t s c =
      (casStore s t ++ [succRec r c.fid],
       { phase := Phase.done (RotResult.ok c.fid), fid := c.fid }) := by
  simp only [stepCaller, hc, hl]
  rw [if_pos hr]

theorem stepCaller_active_cas_fail (t : Nat) {s : Store} (c : Caller) {r : TokenRec}
    (hc : c.phase = Phase.looked Obs.oActive) (hl : lookup s t = some r)
    (hr : r.status ≠ Status.active) :
    stepCaller t s c =
      (revokeLineage s r.lineage_id,
       { phase := Phase.done RotResult.errReuse, fid := c.fid }) := by
  simp only [stepCaller, hc, hl]
  rw [if_neg hr]

theorem step_get?_none {t : Nat} {cfg : Config} {k : Nat} (h : cfg.callers.get? k = none) :
    step t cfg k = cfg := by
  simp only [step, h]

theorem step_get?_some {t : Nat} {cfg : Config} {k : Nat} {c : Caller}
    (h : cfg.callers.get? k = some c) :
    step t cfg k = { store := (stepCaller t cfg.store c).1
                   , callers := cfg.callers.set k (stepCaller t cfg.store c).2 } := by
  simp only [step, h]

theorem lookup_SB {s0 : Store} {t : Nat} {r0 : TokenRec}
    (h0 : lookup s0 t = some r0) (hact : r0.status = Status.active) (w : Nat) :
    lookup (SB s0 t r0 w) t = some { r0 with status := Status.rotated } := by
  unfold SB
  apply lookup_append_some
  rw [casStore, lookup_map _ (casUpd_token_id _), h0, Option.map_some',
      casUpd_of_active (lookup_token_id h0) hact]

theorem lookup_SC {s0 : Store} {t : Nat} {r0 : TokenRec}
    (h0 : lookup s0 t = some r0) (hact : r0.status = Status.active) (w : Nat) :
    lookup (SC s0 t r0 w) t = some { r0 with status := Status.revoked } := by
  unfold SC
  rw [revokeLineage, lookup_map _ (revokeUpd_token_id _), lookup_SB h0 hact w, Option.map_some',
      revokeUpd_of_lineage
        (show ({ r0 with status := Status.rotated } : TokenRec).lineage_id = r0.lineage_id from rfl)]

end Race

namespace Race

theorem Inv_step {s0 : Store} {t : Nat} {r0 : TokenRec}
    (h0 : lookup s0 t = some r0) (hact : r0.status = Status.active)
    {cfg : Config} (h : Inv s0 t r0 cfg) (k : Nat) : Inv s0 t r0 (step t cfg k) := by
  cases hget : cfg.callers.get? k with
  | none => rw [step_get?_none hget]; exact h
  | some c =>
    rw [step_get?_some hget]
    rcases h with ⟨hstore, hph⟩ | ⟨i, w, hwin, hstore, hph⟩ | ⟨i, w, hwin, hstore, hwit, hph⟩
    · -- phase A
      rcases hph k c hget with hc | hc
      · rw [hstore, stepCaller_init t s0 c hc, observe_active h0 hact]
        refine Or.inl ⟨rfl, ?_⟩
        intro j c2 hj
        by_cases hjk : j = k
        · subst hjk
          rw [get?_set_self _ _ _ _ hget] at hj
          cases hj
          exact Or.inr rfl
        · rw [get?_set_ne _ _ _ _ (fun he => hjk he.symm)] at hj
          exact hph j c2 hj
      · rw [hstore, stepCaller_active_cas_ok t c hc h0 hact]
        refine Or.inr (Or.inl ⟨k, c.fid, ?_, rfl, ?_⟩)
        · rw [get?_set_self _ _ _ _ hget]
          rfl
        · intro j c2 hjne hj
          rw [get?_set_ne _ _ _ _ (fun he => hjne he.symm)] at hj
          rcases hph j c2 hj with h1 | h1
          · exact Or.inl h1
          · exact Or.inr (Or.inl h1)
    · -- phase B
      by_cases hki : k = i
      · subst hki
        rw [hget] at hwin
        cases hwin
        rw [hstore, stepCaller_done t (SB s0 t r0 w) (okState w) (RotResult.ok w) rfl]
        refine Or.inr (Or.inl ⟨k, w, ?_, rfl, ?_⟩)
        · rw [get?_set_self _ _ _ _ hget]
          rfl
        · intro j c2 hjne hj
          rw [get?_set_ne _ _ _ _ (fun he => hjne he.symm)] at hj
          exact hph j c2 hjne hj
      · rcases hph k c hki hget with hc | hc | hc
        · rw [hstore, stepCaller_init t (SB s0 t r0 w) c hc,
              observe_rotated (lookup_SB h0 hact w) rfl]
          refine Or.inr (Or.inl ⟨i, w, ?_, rfl, ?_⟩)
          · rw [get?_set_ne _ _ _ _ hki]
            exact hwin
          · intro j c2 hjne hj
            by_cases hjk : j = k
            · subst hjk
              rw [get?_set_self _ _ _ _ hget] at hj
              cases hj
              exact Or.inr (Or.inr rfl)
            · rw [get?_set_ne _ _ _ _ (fun he => hjk he.symm)] at hj
              exact hph j c2 hjne hj
        · rw [hstore, stepCaller_active_cas_fail t c hc (lookup_SB h0 hact w) (by simp)]
          refine Or.inr (Or.inr ⟨i, w, ?_, rfl,
            ⟨k, { phase := Phase.done RotResult.errReuse, fid := c.fid }, ?_, rfl⟩, ?_⟩)
          · rw [get?_set_ne _ _ _ _ hki]
            exact hwin
          · rw [get?_set_self _ _ _ _ hget]
          · intro j c2 hjne hj
            by_cases hjk : j = k
            · subst hjk
              rw [get?_set_self _ _ _ _ hget] at hj
              cases hj
              exact Or.inr (Or.inr (Or.inr (Or.inr (Or.inl rfl))))
            · rw [get?_set_ne _ _ _ _ (fun he => hjk he.symm)] at hj
              rcases hph j c2 hjne hj with h1 | h1 | h1
              · exact Or.inl h1
              · exact Or.inr (Or.inl h1)
              · exact Or.inr (Or.inr (Or.inl h1))
        · rw [hstore, stepCaller_rotated_lookup t c hc (lookup_SB h0 hact w)]
          refine Or.inr (Or.inr ⟨i, w, ?_, rfl,
            ⟨k, { phase := Phase.done RotResult.errReuse, fid := c.fid }, ?_, rfl⟩, ?_⟩)
          · rw [get?_set_ne _ _ _ _ hki]
            exact hwin
          · rw [get?_set_self _ _ _ _ hget]
          · intro j c2 hjne hj
            by_cases hjk : j = k
            · subst hjk
              rw [get?_set_self _ _ _ _ hget] at hj
              cases hj
              exact Or.inr (Or.inr (Or.inr (Or.inr (Or.inl rfl))))
            · rw [get?_set_ne _ _ _ _ (fun he => hjk he.symm)] at hj
              rcases hph j c2 hjne hj with h1 | h1 | h1
              · exact Or.inl h1
              · exact Or.inr (Or.inl h1)
              · exact Or.inr (Or.inr (Or.inl h1))
    · -- phase C
      obtain ⟨m, cm, hm, hmph⟩ := hwit
      by_cases hki : k = i
      · subst hki
        rw [hget] at hwin
        cases hwin
        rw [hstore, stepCaller_done t (SC s0 t r0 w) (okState w) (RotResult.ok w) rfl]
        have hmk : m ≠ k := by
          intro he
          subst he
          rw [hget] at hm
          cases hm
          simp [okState] at hmph
        refine Or.inr (Or.inr ⟨k, w, ?_, rfl, ⟨m, cm, ?_, hmph⟩, ?_⟩)
        · rw [get?_set_self _ _ _ _ hget]
          rfl
        · rw [get?_set_ne _ _ _ _ (fun he => hmk he.symm)]
          exact hm
        · intro j c2 hjne hj
          rw [get?_set_ne _ _ _ _ (fun he => hjne he.symm)] at hj
          exact hph j c2 hjne hj
      · rcases hph k c hki hget with hc | hc | hc | hc | hc | hc
        · -- init
          rw [hstore, stepCaller_init t (SC s0 t r0 w) c hc,
              observe_revoked (lookup_SC h0 hact w) rfl]
          have hmk : m ≠ k := by
            intro he
            subst he
            rw [hget] at hm
            cases hm
            rw [hc] at hmph
            cases hmph
          refine Or.inr (Or.inr ⟨i, w, ?_, rfl, ⟨m, cm, ?_, hmph⟩, ?_⟩)
          · rw [get?_set_ne _ _ _ _ hki]
            exact hwin
          · rw [get?_set_ne _ _ _ _ (fun he => hmk he.symm)]
            exact hm
          · intro j c2 hjne hj
            by_cases hjk : j = k
            · subst hjk
              rw [get?_set_self _ _ _ _ hget] at hj
              cases hj
              exact Or.inr (Or.inr (Or.inr (Or.inl rfl)))
            · rw [get?_set_ne _ _ _ _ (fun he => hjk he.symm)] at hj
              exact hph j c2 hjne hj
        · -- looked oActive: conditioned update fails on the revoked record
          rw [hstore, stepCaller_active_cas_fail t c hc (lookup_SC h0 hact w) (by simp),
              show revokeLineage (SC s0 t r0 w)
                  ({ r0 with status := Status.revoked } : TokenRec).lineage_id = SC s0 t r0 w from
                revokeLineage_idem (SB s0 t r0 w) r0.lineage_id]
          refine Or.inr (Or.inr ⟨i, w, ?_, rfl,
            ⟨k, { phase := Phase.done RotResult.errReuse, fid := c.fid }, ?_, rfl⟩, ?_⟩)
          · rw [get?_set_ne _ _ _ _ hki]
            exact hwin
          · rw [get?_set_self _ _ _ _ hget]
          · intro j c2 hjne hj
            by_cases hjk : j = k
            · subst hjk
              rw [get?_set_self _ _ _ _ hget] at hj
              cases hj
              exact Or.inr (Or.inr (Or.inr (Or.inr (Or.inl rfl))))
            · rw [get?_set_ne _ _ _ _ (fun he => hjk he.symm)] at hj
              exact hph j c2 hjne hj
        · -- looked oRotated
          rw [hstore, stepCaller_rotated_lookup t c hc (lookup_SC h0 hact w),
              show revokeLineage (SC s0 t r0 w)
                  ({ r0 with status := Status.revoked } : TokenRec).lineage_id = SC s0 t r0 w from
                revokeLineage_idem (SB s0 t r0 w) r0.lineage_id]
          refine Or.inr (Or.inr ⟨i, w, ?_, rfl,
            ⟨k, { phase := Phase.done RotResult.errReuse, fid := c.fid }, ?_, rfl⟩, ?_⟩)
          · rw [get?_set_ne _ _ _ _ hki]
            exact hwin
          · rw [get?_set_self _ _ _ _ hget]
          · intro j c2 hjne hj
            by_cases hjk : j = k
            · subst hjk
              rw [get?_set_self _ _ _ _ hget] at hj
              cases hj
              exact Or.inr (Or.inr (Or.inr (Or.inr (Or.inl rfl))))
            · rw [get?_set_ne _ _ _ _ (fun he => hjk he.symm)] at hj
              exact hph j c2 hjne hj
        · -- looked oRevoked
          rw [hstore, stepCaller_revoked t (SC s0 t r0 w) c hc]
          have hmk : m ≠ k := by
            intro he
            subst he
            rw [hget] at hm
            cases hm
            rw [hc] at hmph
            cases hmph
          refine Or.inr (Or.inr ⟨i, w, ?_, rfl, ⟨m, cm, ?_, hmph⟩, ?_⟩)
          · rw [get?_set_ne _ _ _ _ hki]
            exact hwin
          · rw [get?_set_ne _ _ _ _ (fun he => hmk he.symm)]
            exact hm
          · intro j c2 hjne hj
            by_cases hjk : j = k
            · subst hjk
              rw [get?_set_self _ _ _ _ hget] at hj
              cases hj
              exact Or.inr (Or.inr (Or.inr (Or.inr (Or.inr rfl))))
            · rw [get?_set_ne _ _ _ _ (fun he => hjk he.symm)] at hj
              exact hph j c2 hjne hj
        · -- done errReuse: no-op step, the reuse witness moves to k
          rw [hstore, stepCaller_done t (SC s0 t r0 w) c RotResult.errReuse hc]
          refine Or.inr (Or.inr ⟨i, w, ?_, rfl,
            ⟨k, { phase := Phase.done RotResult.errReuse, fid := c.fid }, ?_, rfl⟩, ?_⟩)
          · rw [get?_set_ne _ _ _ _ hki]
            exact hwin
          · rw [get?_set_self _ _ _ _ hget]
          · intro j c2 hjne hj
            by_cases hjk : j = k
            · subst hjk
              rw [get?_set_self _ _ _ _ hget] at hj
              cases hj
              exact Or.inr (Or.inr (Or.inr (Or.inr (Or.inl rfl))))
            · rw [get?_set_ne _ _ _ _ (fun he => hjk he.symm)] at hj
              exact hph j c2 hjne hj
        · -- done errRevoked: no-op step
          rw [hstore, stepCaller_done t (SC s0 t r0 w) c RotResult.errRevoked hc]
          have hmk : m ≠ k := by
            intro he
            subst he
            rw [hget] at hm
            cases hm
            rw [hc] at hmph
            simp at hmph
          refine Or.inr (Or.inr ⟨i, w, ?_, rfl, ⟨m, cm, ?_, hmph⟩, ?_⟩)
          · rw [get?_set_ne _ _ _ _ hki]
            exact hwin
          · rw [get?_set_ne _ _ _ _ (fun he => hmk he.symm)]
            exact hm
          · intro j c2 hjne hj
            by_cases hjk : j = k
            · subst hjk
              rw [get?_set_self _ _ _ _ hget] at hj
              cases hj
              exact Or.inr (Or.inr (Or.inr (Or.inr (Or.inr rfl))))
            · rw [get?_set_ne _ _ _ _ (fun he => hjk he.symm)] at hj
              exact hph j c2 hjne hj

end Race

namespace Race

theorem Inv_run {s0 : Store} {t : Nat} {r0 : TokenRec}
    (h0 : lookup s0 t = some r0) (hact : r0.status = Status.active)
    (σ : List Nat) : ∀ {cfg : Config}, Inv s0 t r0 cfg → Inv s0 t r0 (run t cfg σ) := by
  induction σ with
  | nil => intro cfg h; exact h
  | cons k σ ih => intro cfg h; exact ih (Inv_step h0 hact h k)

theorem Inv_init (s0 : Store) (t : Nat) (r0 : TokenRec) (fids : List Nat) :
    Inv s0 t r0 (initConfig s0 fids) := by
  refine Or.inl ⟨rfl, ?_⟩
  intro j c hc
  simp only [initConfig] at hc
  rw [get?_map_aux] at hc
  cases hf : fids.get? j with
  | none => rw [hf] at hc; cases hc
  | some f =>
    rw [hf] at hc
    cases hc
    exact Or.inl rfl

theorem step_length (t : Nat) (cfg : Config) (k : Nat) :
    (step t cfg k).callers.length = cfg.callers.length := by
  cases hget : cfg.callers.get? k with
  | none => rw [step_get?_none hget]
  | some c => rw [step_get?_some hget]; exact List.length_set _ _ _

theorem run_length (t : Nat) (σ : List Nat) :
    ∀ (cfg : Config), (run t cfg σ).callers.length = cfg.callers.length := by
  induction σ with
  | nil => intro cfg; rfl
  | cons k σ ih =>
    intro cfg
    show (run t (step t cfg k) σ).callers.length = _
    rw [ih, step_length]

theorem allDone_get? {cfg : Config} (h : allDone cfg = true) {j : Nat} {c : Caller}
    (hc : cfg.callers.get? j = some c) : isDone c = true := by
  have hmem : c ∈ cfg.callers := List.get?_mem hc
  exact List.all_eq_true.mp h c hmem

theorem exists_other_index (i n : Nat) (hn : 2 ≤ n) : ∃ j, j ≠ i ∧ j < n := by
  by_cases hi : i = 0
  · exact ⟨1, by omega, by omega⟩
  · exact ⟨0, by omega, by omega⟩

end Race

/-- Claim C2, counterexample: with three concurrent callers racing the same
active token under a sequential schedule, the third caller observes the
already revoked record: it finishes with the revoked error instead of taking
the reuse path, and its deciding step leaves the store untouched (it triggers
no lineage revocation), so it is not true that each of the N minus 1 losers
takes the reuse path and triggers revocation. -/
theorem claim_c2_counterexample :
    allDone (run 0 (initConfig storeRace [10, 11, 12]) [0, 0, 1, 1, 2, 2]) = true ∧
    resultsOf (run 0 (initConfig storeRace [10, 11, 12]) [0, 0, 1, 1, 2, 2]) =
      [some (RotResult.ok 10), some RotResult.errReuse, some RotResult.errRevoked] ∧
    RotResult.errRevoked ≠ RotResult.errReuse ∧
    (step 0 (run 0 (initConfig storeRace [10, 11, 12]) [0, 0, 1, 1, 2]) 2).store =
      (run 0 (initConfig storeRace [10, 11, 12]) [0, 0, 1, 1, 2]).store := by
  refine ⟨?_, ?_, ?_, ?_⟩ <;> decide

/-- Claim C2, amended: when N callers (N at least 2) concurrently present the
same active token, under every schedule that runs all of them to completion
exactly one caller succeeds and inserts exactly one successor record; every
other caller fails with the reuse or the revoked error and inserts nothing;
at least one failing caller takes the reuse path, and the final store is the
rotated lineage fully revoked, the winner successor included.  The status
transition is the single conditioned atomic update of the model. -/
theorem claim_c2_amended_one_winner (s0 : Store) (t : Nat) (r0 : TokenRec)
    (fids : List Nat) (σ : List Nat)
    (h0 : lookup s0 t = some r0) (hact : r0.status = Status.active)
    (hN : 2 ≤ fids.length)
    (hdone : allDone (run t (initConfig s0 fids) σ) = true) :
    ∃ i w,
      (run t (initConfig s0 fids) σ).callers.get? i = some (okState w) ∧
      (run t (initConfig s0 fids) σ).store =
        revokeLineage (casStore s0 t ++ [succRec r0 w]) r0.lineage_id ∧
      allRevoked r0.lineage_id (run t (initConfig s0 fids) σ).store ∧
      ({ token_id := w, lineage_id := r0.lineage_id, parent_token_id := some r0.token_id
       , owner_id := r0.owner_id, status := Status.revoked } : TokenRec) ∈
        (run t (initConfig s0 fids) σ).store ∧
      (∃ m cm, (run t (initConfig s0 fids) σ).callers.get? m = some cm ∧
        cm.phase = Phase.done RotResult.errReuse) ∧
      ∀ j c, j ≠ i → (run t (initConfig s0 fids) σ).callers.get? j = some c →
        c.phase = Phase.done RotResult.errReuse ∨
        c.phase = Phase.done RotResult.errRevoked := by
  have hlen : (run t (initConfig s0 fids) σ).callers.length = fids.length := by
    rw [run_length]
    exact List.length_map _ _
  have hinv := Inv_run h0 hact σ (Inv_init s0 t r0 fids)
  rcases hinv with ⟨hstore, hph⟩ | ⟨i, w, hwin, hstore, hph⟩ | ⟨i, w, hwin, hstore, hwit, hph⟩
  · exfalso
    obtain ⟨c, hc⟩ :=
      get?_some_of_lt (run t (initConfig s0 fids) σ).callers 0 (by omega)
    have hd := allDone_get? hdone hc
    rcases hph 0 c hc with hc' | hc' <;> simp [isDone, hc'] at hd
  · exfalso
    obtain ⟨j, hji, hjlt⟩ := exists_other_index i fids.length hN
    obtain ⟨c, hc⟩ :=
      get?_some_of_lt (run t (initConfig s0 fids) σ).callers j (by omega)
    have hd := allDone_get? hdone hc
    rcases hph j c hji hc with hc' | hc' | hc' <;> simp [isDone, hc'] at hd
  · refine ⟨i, w, hwin, hstore, ?_, ?_, hwit, ?_⟩
    · rw [hstore]
      exact allRevoked_revokeLineage _ _
    · rw [hstore]
      show _ ∈ List.map (revokeUpd r0.lineage_id) (SB s0 t r0 w)
      apply List.mem_map.mpr
      refine ⟨succRec r0 w, ?_, ?_⟩
      · exact List.mem_append.mpr (Or.inr (List.mem_singleton.mpr rfl))
      · rw [revokeUpd_of_lineage (show (succRec r0 w).lineage_id = r0.lineage_id from rfl)]
        rfl
    · intro j c hji hc
      have hd := allDone_get? hdone hc
      rcases hph j c hji hc with hc' | hc' | hc' | hc' | hc' | hc'
      · simp [isDone, hc'] at hd
      · simp [isDone, hc'] at hd
      · simp [isDone, hc'] at hd
      · simp [isDone, hc'] at hd
      · exact Or.inl hc'
      · exact Or.inr hc'

/-- Claim C2, witness: the amended statement at a concrete race of two
callers over one active token, under the sequential schedule. -/
theorem claim_c2_witness :
    ∃ i w,
      (run 0 (initConfig storeRace [10, 11]) [0, 0, 1, 1]).callers.get? i = some (okState w) ∧
      (run 0 (initConfig storeRace [10, 11]) [0, 0, 1, 1]).store =
        revokeLineage (casStore storeRace 0 ++ [succRec recRace w]) recRace.lineage_id ∧
      allRevoked recRace.lineage_id (run 0 (initConfig storeRace [10, 11]) [0, 0, 1, 1]).store ∧
      ({ token_id := w, lineage_id := recRace.lineage_id
       , parent_token_id := some recRace.token_id
       , owner_id := recRace.owner_id, status := Status.revoked } : TokenRec) ∈
        (run 0 (initConfig storeRace [10, 11]) [0, 0, 1, 1]).store ∧
      (∃ m cm, (run 0 (initConfig storeRace [10, 11]) [0, 0, 1, 1]).callers.get? m = some cm ∧
        cm.phase = Phase.done RotResult.errReuse) ∧
      ∀ j c, j ≠ i → (run 0 (initConfig storeRace [10, 11]) [0, 0, 1, 1]).callers.get? j = some c →
        c.phase = Phase.done RotResult.errReuse ∨
        c.phase = Phase.done RotResult.errRevoked :=
  claim_c2_amended_one_winner storeRace 0 recRace [10, 11] [0, 0, 1, 1]
    rfl rfl (by decide) (by decide)
